import Mathlib

/-!
Shallow embedding of the relevance-ranking core of the chatbot repository:
`PyModels/bot/gb_relevancy_detector.py` (class `GB_RelevancyDetector`) and
`ruchatbot/bot/keyword_matcher.py` (classes `KeywordMatcherLemma`,
`KeywordMatcherLemmaList`, `KeywordMatcher`), together with theorems that
settle the specification claims about these two files.
-/

/-! ## Python string primitives

The keyword matcher only ever calls `str.split` with a single-character
separator (`','` and `'|'`) and `str.strip` with no argument.  Both are
embedded as structural recursion over the character list of the string so
that concrete instances evaluate inside the kernel. -/

/-- Python `s.split(sep)` for a one-character separator: splits on every
occurrence, keeping empty fragments (`"a,,b".split(',') = ['a','','b']`,
`"".split(',') = ['']`). -/
def pySplitChar (sep : Char) : List Char → List (List Char)
  | [] => [[]]
  | c :: rest =>
    match pySplitChar sep rest with
    | [] => [[]]
    | g :: gs => if c = sep then [] :: g :: gs else (c :: g) :: gs

/-- Python `s.strip()`: drop whitespace from both ends. -/
def pyStrip (cs : List Char) : List Char :=
  ((cs.dropWhile Char.isWhitespace).reverse.dropWhile Char.isWhitespace).reverse

/-! ## Keyword matcher (`ruchatbot/bot/keyword_matcher.py`)

An input phrase exposes `tags` (per-token tuples, the lemma at position 2)
and `raw_tokens` (surface strings).  Tag tuples are modelled as triples,
whose component at index 2 is `.2.2`. -/

structure InputPhrase where
  tags : List (String × String × String)
  raw_tokens : List String
deriving DecidableEq

/-- Class `KeywordMatcherLemma`: holds one normalized lemma string.
(The Python attribute is called `lemma`; that word is a command keyword in
Lean, so the field is named `lemma0`.) -/
structure KeywordMatcherLemma where
  lemma0 : String
deriving DecidableEq

/-- `KeywordMatcherLemma.match`: true if the lemma equals the lemma-tag
(`input_token[2]`) of any token of the phrase, or equals any raw surface
token verbatim.  (`match` is a Lean keyword, hence `matchPhrase`.) -/
def KeywordMatcherLemma.matchPhrase (self : KeywordMatcherLemma) (input_phrase : InputPhrase) : Bool :=
  input_phrase.tags.any (fun input_token => input_token.2.2 == self.lemma0)
    || input_phrase.raw_tokens.any (fun input_token => input_token == self.lemma0)

/-- Class `KeywordMatcherLemmaList`: an OR-group of lemma matchers. -/
structure KeywordMatcherLemmaList where
  items : List KeywordMatcherLemma
deriving DecidableEq

/-- `KeywordMatcherLemmaList.from_string`: split on `|`, strip each lemma. -/
def KeywordMatcherLemmaList.from_string (s : String) : KeywordMatcherLemmaList :=
  ⟨(pySplitChar '|' s.data).map (fun lm => ⟨String.mk (pyStrip lm)⟩)⟩

/-- `KeywordMatcherLemmaList.match`: true if ANY contained matcher matches. -/
def KeywordMatcherLemmaList.matchPhrase (self : KeywordMatcherLemmaList) (phrase : InputPhrase) : Bool :=
  self.items.any (fun matcher => matcher.matchPhrase phrase)

/-- Class `KeywordMatcher`: an AND-group of OR-groups. -/
structure KeywordMatcher where
  items : List KeywordMatcherLemmaList
deriving DecidableEq

/-- `KeywordMatcher.from_string`: split on `,`, strip each group, compile
each group with `KeywordMatcherLemmaList.from_string`. -/
def KeywordMatcher.from_string (s : String) : KeywordMatcher :=
  ⟨(pySplitChar ',' s.data).map
    (fun z => KeywordMatcherLemmaList.from_string (String.mk (pyStrip z)))⟩

/-- `KeywordMatcher.match`: false as soon as one group fails, true otherwise. -/
def KeywordMatcher.matchPhrase (self : KeywordMatcher) (input_phrase : InputPhrase) : Bool :=
  self.items.all (fun item => item.matchPhrase input_phrase)

/-- C5: the compiled matcher matches a phrase iff for every comma-separated
group of the configuration string, at least one pipe-separated lemma of the
group (after stripping) equals the lemma-tag (position 2 of a tag tuple) of
some token of the phrase, or equals some raw surface token verbatim:
comma is conjunction over groups, pipe is disjunction within a group, and
a lemma matches through either of the two independent paths. -/
theorem keywordMatcher_semantics (s : String) (p : InputPhrase) :
    (KeywordMatcher.from_string s).matchPhrase p = true ↔
      ∀ g ∈ pySplitChar ',' s.data, ∃ lm ∈ pySplitChar '|' (pyStrip g),
        (∃ t ∈ p.tags, t.2.2 = String.mk (pyStrip lm)) ∨
          (∃ rt ∈ p.raw_tokens, rt = String.mk (pyStrip lm)) := by
  simp only [KeywordMatcher.from_string, KeywordMatcher.matchPhrase,
    KeywordMatcherLemmaList.from_string, KeywordMatcherLemmaList.matchPhrase,
    KeywordMatcherLemma.matchPhrase, List.all_eq_true, List.any_eq_true,
    List.forall_mem_map, List.mem_map, exists_exists_and_eq_and, forall_exists_index, and_imp,
    forall_apply_eq_imp_iff₂, Bool.or_eq_true, beq_iff_eq]

/-- C8: for EVERY configuration string containing an empty group between
commas (an empty fragment of the comma split, e.g. `"a,,b"`), compilation
succeeds and produces a degenerate matcher: the empty group compiles to a
single empty-lemma matcher among the compiled groups, and the matcher's
`match` returns false for every input phrase none of whose lemma-tags or raw
tokens equals the empty string. -/
theorem keywordMatcher_empty_group_degenerate (s : String)
    (hg : [] ∈ pySplitChar ',' s.data) :
    KeywordMatcherLemmaList.mk [KeywordMatcherLemma.mk ""] ∈
        (KeywordMatcher.from_string s).items ∧
      ∀ p : InputPhrase, (∀ t ∈ p.tags, t.2.2 ≠ "") → (∀ rt ∈ p.raw_tokens, rt ≠ "") →
        (KeywordMatcher.from_string s).matchPhrase p = false := by
  constructor
  · have he : KeywordMatcherLemmaList.from_string (String.mk (pyStrip [])) =
        KeywordMatcherLemmaList.mk [KeywordMatcherLemma.mk ""] := by decide
    have hmem := List.mem_map_of_mem
      (fun z => KeywordMatcherLemmaList.from_string (String.mk (pyStrip z))) hg
    exact he ▸ hmem
  · intro p htags hraw
    rw [Bool.eq_false_iff]
    intro hmatch
    rw [keywordMatcher_semantics] at hmatch
    obtain ⟨lm, hlm, hcase⟩ := hmatch [] hg
    have htrim : pySplitChar '|' (pyStrip []) = [[]] := by decide
    rw [htrim, List.mem_singleton] at hlm
    subst hlm
    rcases hcase with ⟨t, ht, htt⟩ | ⟨rt, hrt, hrtt⟩
    · exact htags t ht (by simpa using htt)
    · exact hraw rt hrt (by simpa using hrtt)

/-- Witness for `keywordMatcher_empty_group_degenerate`: the configuration
string `"a,,b"` has an empty group between its commas; the compiled matcher
contains the single-empty-lemma group and rejects a concrete phrase with
nonempty lemma-tags and raw tokens. -/
theorem keywordMatcher_empty_group_degenerate_witness :
    ([] ∈ pySplitChar ',' ("a,,b".data)) ∧
      KeywordMatcherLemmaList.mk [KeywordMatcherLemma.mk ""] ∈
        (KeywordMatcher.from_string "a,,b").items ∧
      (KeywordMatcher.from_string "a,,b").matchPhrase
        (InputPhrase.mk [("a", "x", "a")] ["a"]) = false := by
  have h := keywordMatcher_empty_group_degenerate "a,,b" (by decide)
  exact ⟨by decide, h.1,
    h.2 (InputPhrase.mk [("a", "x", "a")] ["a"]) (by decide) (by decide)⟩

/-! ## GB relevancy detector (`PyModels/bot/gb_relevancy_detector.py`)

The class `GB_RelevancyDetector` holds the vectorization parameters loaded by
`init_model_params` and exposes `get_most_relevant`.  Its mutable attribute
record is embedded as `GBState` and passed/returned explicitly; the sparse
batch matrix `scipy.sparse.lil_matrix` is embedded as a shape plus an entry
function, whose element assignment checks bounds (out of range raises
`IndexError`).  Fallible Python operations return `Except`. -/

/-- A `scipy.sparse.lil_matrix` of boolean-valued entries: shape and entries. -/
structure Mat where
  nrows : Nat
  ncols : Nat
  entry : Nat → Nat → Bool

/-- `lil_matrix((nrows, ncols))`: every entry starts at zero/false. -/
def lil_matrix (shape : Nat × Nat) : Mat :=
  ⟨shape.1, shape.2, fun _ _ => false⟩

/-- `X[i, j] = True`: in-bounds element assignment, `IndexError` otherwise. -/
def Mat.setTrue (X : Mat) (i j : Nat) : Except String Mat :=
  if i < X.nrows ∧ j < X.ncols then
    .ok { X with entry := fun r c => if r = i ∧ c = j then true else X.entry r c }
  else
    .error "IndexError"

/-- Python `key in dict` / `dict[key]` over the shingle-to-column table,
embedded as an association list (a dict's keys are unique, so the first
binding wins). -/
def dictLookup : List (String × Nat) → String → Option Nat
  | [], _ => none
  | kv :: rest, key => if kv.1 = key then some kv.2 else dictLookup rest key

/-- The attributes of `GB_RelevancyDetector` set in `__init__` and
`init_model_params`. -/
structure GBState where
  xgb_relevancy_shingle2id : List (String × Nat)
  xgb_relevancy_shingle_len : Nat
  xgb_relevancy_nb_features : Nat
  xgb_relevancy_lemmatize : Bool
  x_matrix_type : String
deriving DecidableEq

/-- The model configuration object consumed by `init_model_params`. -/
structure ModelConfig where
  shingle2id : List (String × Nat)
  shingle_len : Nat
  nb_features : Nat
  lemmatize : Bool
deriving DecidableEq

/-- `init_model_params`: copy the four vectorization parameters out of the
model configuration (`x_matrix_type` is untouched). -/
def init_model_params (self : GBState) (model_config : ModelConfig) : GBState :=
  { self with
    xgb_relevancy_shingle2id := model_config.shingle2id
    xgb_relevancy_shingle_len := model_config.shingle_len
    xgb_relevancy_nb_features := model_config.nb_features
    xgb_relevancy_lemmatize := model_config.lemmatize }

/-- The Python exceptions this development distinguishes. -/
inductive PyExc where
  | typeError (msg : String)
  | notImplementedError (msg : String)
deriving DecidableEq

/-- The body of the base-class `GB_RelevancyDetector.predict_by_model` is
`raise NotImplemented()`.  `NotImplemented` is Python's binary-operation
sentinel object, not an exception class, and it is not callable, so
evaluating the call expression `NotImplemented()` raises
`TypeError: 'NotImplementedType' object is not callable` before the `raise`
statement itself can execute.  The embedding therefore returns that
`TypeError` for every input matrix. -/
def predict_by_model (X_data : Mat) : Except PyExc (List Rat) :=
  .error (.typeError ("NotImplementedType object is not callable"))

/-- `unknown_shingle`: the overridable out-of-vocabulary hook.  Its body is
`pass` (the logging line is commented out), so the state is returned
unchanged. -/
def unknown_shingle (self : GBState) (shingle : String) : GBState :=
  self

/-- One of the three `for shingle in …` loops of
`xgb_relevancy_vectorize_sample_x`: an out-of-vocabulary shingle goes
through `self.unknown_shingle`, an in-vocabulary one assigns `True` to the
matrix element `(idata, icol + shingle2id[shingle])`.  Besides the state and
the matrix, the loop also returns the list of shingles handed to the hook,
so theorems can speak about the hook invocations. -/
def vectorizeLoop (shingle2id : List (String × Nat)) (idata icol : Nat) :
    List String → GBState → Mat → List String → Except String (GBState × Mat × List String)
  | [], self, X_data, oov => .ok (self, X_data, oov)
  | shingle :: rest, self, X_data, oov =>
    if (dictLookup shingle2id shingle).isNone then
      vectorizeLoop shingle2id idata icol rest (unknown_shingle self shingle) X_data (oov ++ [shingle])
    else
      match dictLookup shingle2id shingle with
      | none => .error ("KeyError")
      | some off =>
        match X_data.setTrue idata (icol + off) with
        | .error e => .error e
        | .ok X' => vectorizeLoop shingle2id idata icol rest self X' oov

/-- Python set intersection `ps & qs` over deduplicated element lists. -/
def pySetInter (a b : List String) : List String :=
  a.filter (fun sh => decide (sh ∈ b))

/-- Python set difference `ps - qs` over deduplicated element lists. -/
def pySetDiff (a b : List String) : List String :=
  a.filter (fun sh => decide (sh ∉ b))

/-- `xgb_relevancy_vectorize_sample_x`: form the common / premise-only /
question-only shingle sets and run the three segment loops at column bases
`0`, `nb_shingles` and `2 * nb_shingles` (`icol` starts at `0` and is
incremented by `nb_shingles` before each of the last two loops). -/
def xgb_relevancy_vectorize_sample_x (self : GBState) (X_data : Mat) (idata : Nat)
    (premise_shingles question_shingles : List String) (shingle2id : List (String × Nat)) :
    Except String (GBState × Mat × List String) :=
  let ps := premise_shingles.dedup
  let qs := question_shingles.dedup
  let common_shingles := pySetInter ps qs
  let notmatched_ps := pySetDiff ps qs
  let notmatched_qs := pySetDiff qs ps
  let nb_shingles := shingle2id.length
  match vectorizeLoop shingle2id idata 0 common_shingles self X_data [] with
  | .error e => .error e
  | .ok (self1, X1, oov1) =>
    match vectorizeLoop shingle2id idata nb_shingles notmatched_ps self1 X1 oov1 with
    | .error e => .error e
    | .ok (self2, X2, oov2) =>
      vectorizeLoop shingle2id idata (2 * nb_shingles) notmatched_qs self2 X2 oov2

/-- The text-utilities collaborator (external: tokenization, lemmatization,
word joining, n-gram extraction). -/
structure TextUtils where
  tokenize : String → List String
  lemmatize : String → List String
  words2str : List String → String
  ngrams : String → Nat → List String

/-- A candidate record `(premise, premise_person, phrase_code)` as
destructured by `get_most_relevant`. -/
structure Phrase where
  premise : String
  premise_person : String
  phrase_code : String
deriving DecidableEq

/-- The vectorization loop of `get_most_relevant`
(`for ipremise, (premise, premise_person, phrase_code) in enumerate(phrases)`):
normalize premise and probe — the `xgb_relevancy_lemmatize` flag selects
`tokenize` in its true branch and `lemmatize` otherwise, exactly as in the
source — join, extract the shingle sets, and vectorize into row `ipremise`. -/
def buildBatch (text_utils : TextUtils) (probe_phrase : String) :
    List Phrase → Nat → GBState → Mat → Except String (GBState × Mat)
  | [], _, self, X_data => .ok (self, X_data)
  | ph :: rest, ipremise, self, X_data =>
    let premise_words :=
      if self.xgb_relevancy_lemmatize then text_utils.tokenize ph.premise
      else text_utils.lemmatize ph.premise
    let question_words :=
      if self.xgb_relevancy_lemmatize then text_utils.tokenize probe_phrase
      else text_utils.lemmatize probe_phrase
    let premise_wx := text_utils.words2str premise_words
    let question_wx := text_utils.words2str question_words
    let premise_shingles := (text_utils.ngrams premise_wx self.xgb_relevancy_shingle_len).dedup
    let question_shingles := (text_utils.ngrams question_wx self.xgb_relevancy_shingle_len).dedup
    match xgb_relevancy_vectorize_sample_x self X_data ipremise premise_shingles
        question_shingles self.xgb_relevancy_shingle2id with
    | .error e => .error e
    | .ok (self', X', _oov) => buildBatch text_utils probe_phrase rest (ipremise + 1) self' X'

/-- Python list indexing `l[i]` for a nonnegative index. -/
def pyGet (l : List α) (i : Nat) : Except String α :=
  match l.get? i with
  | some x => .ok x
  | none => .error ("IndexError")

/-- The list comprehension `[l[i] for i in range(n)]`. -/
def pyIndexMap (l : List α) : Nat → Except String (List α)
  | 0 => .ok []
  | n + 1 =>
    match pyIndexMap l n, pyGet l n with
    | .ok xs, .ok x => .ok (xs ++ [x])
    | .error e, _ => .error e
    | _, .error e => .error e

/-- The result-pairing loop of `get_most_relevant`:
`reslist.append((premise, y_probe[ipremise]))`. -/
def mkReslistAux (y_probe : List Rat) : List Phrase → Nat → Except String (List (String × Rat))
  | [], _ => .ok []
  | ph :: rest, ipremise =>
    match pyGet y_probe ipremise, mkReslistAux y_probe rest (ipremise + 1) with
    | .ok sim, .ok tail => .ok ((ph.premise, sim) :: tail)
    | .error e, _ => .error e
    | _, .error e => .error e

/-- `reslist` as built by `get_most_relevant` before sorting. -/
def mkReslist (phrases : List Phrase) (y_probe : List Rat) : Except String (List (String × Rat)) :=
  mkReslistAux y_probe phrases 0

/-- Stable insertion under the sort key `-z[1]`: the new element goes before
the first element whose key is not smaller, so among equal keys the element
processed as originally earlier stays earlier. -/
def sortedInsertNegKey (z : String × Rat) : List (String × Rat) → List (String × Rat)
  | [] => [z]
  | w :: ws => if -z.2 ≤ -w.2 then z :: w :: ws else w :: sortedInsertNegKey z ws

/-- `sorted(reslist, key=lambda z: -z[1])`: Python's `sorted` is a stable
ascending sort by the key, embedded as a stable insertion sort. -/
def pySortedNegKey : List (String × Rat) → List (String × Rat)
  | [] => []
  | z :: zs => sortedInsertNegKey z (pySortedNegKey zs)

/-- The return value of `get_most_relevant`: a single `(premise, rel)` pair
when `nb_results = 1`, otherwise two parallel lists. -/
inductive GBResult where
  | single (best_premise : String) (best_rel : Rat)
  | multi (best_premises : List String) (best_rels : List Rat)
deriving DecidableEq

/-- What a call to `get_most_relevant` produces in this embedding: the row
counts of the `predict_by_model` invocations performed (instrumentation —
the source performs exactly one), the detector state after the call, and the
value returned or the exception raised after the scoring call. -/
structure RankOutcome where
  scorer_calls : List Nat
  state_after : GBState
  result : Except String GBResult

/-- The part of `get_most_relevant` after the scoring call: build `reslist`,
sort it by descending relevance, then either return `reslist[0]` as a pair
(`nb_results == 1`) or the first `min(nb_results, nb_answers)` texts and
relevances as two lists. -/
def afterScore (phrases : List Phrase) (y_probe : List Rat) (nb_results : Nat) :
    Except String GBResult :=
  match mkReslist phrases y_probe with
  | .error e => .error e
  | .ok reslist0 =>
    let reslist := pySortedNegKey reslist0
    if nb_results = 1 then
      match pyGet reslist 0 with
      | .error e => .error e
      | .ok z => .ok (.single z.1 z.2)
    else
      let n := min nb_results phrases.length
      match pyIndexMap reslist n with
      | .error e => .error e
      | .ok zs => .ok (.multi (zs.map Prod.fst) (zs.map Prod.snd))

/-- `get_most_relevant`: allocate the feature batch
(`lil_matrix((nb_answers, nb_features))`), vectorize every candidate, invoke
the scorer once on the complete batch, then rank and select.  The concrete
subclass's `predict_by_model` is the `scorer` parameter (the unused
`word_embeddings` parameter of the source is omitted). -/
def get_most_relevant (self : GBState) (probe_phrase : String) (phrases : List Phrase)
    (text_utils : TextUtils) (scorer : Mat → List Rat) (nb_results : Nat) :
    Except String RankOutcome :=
  let nb_answers := phrases.length
  let X_data := lil_matrix (nb_answers, self.xgb_relevancy_nb_features)
  match buildBatch text_utils probe_phrase phrases 0 self X_data with
  | .error e => .error e
  | .ok (self1, X1) =>
    let y_probe := scorer X1
    .ok ⟨[X1.nrows], self1, afterScore phrases y_probe nb_results⟩

/-! ## Lemmas about the vectorizer -/

/-- A successful `dictLookup` exhibits a binding of the table. -/
theorem dictLookup_mem {d : List (String × Nat)} {k : String} {v : Nat}
    (h : dictLookup d k = some v) : (k, v) ∈ d := by
  induction d with
  | nil => simp [dictLookup] at h
  | cons kv rest ih =>
    obtain ⟨a, b⟩ := kv
    rw [dictLookup] at h
    split at h
    · rename_i ha
      cases h
      simp only at ha
      subst ha
      exact List.mem_cons_self _ _
    · exact List.mem_cons_of_mem _ (ih h)

/-- The segment loop: whatever it does to the matrix, a successful run
returns the state it was given (the hook's body is `pass`). -/
theorem vectorizeLoop_state {shingle2id : List (String × Nat)} {idata icol : Nat}
    {shingles : List String} {self self' : GBState} {X X' : Mat} {oov oov' : List String}
    (h : vectorizeLoop shingle2id idata icol shingles self X oov = .ok (self', X', oov')) :
    self' = self := by
  induction shingles generalizing self X oov with
  | nil =>
    rw [vectorizeLoop] at h
    cases h
    rfl
  | cons sh rest ih =>
    rw [vectorizeLoop] at h
    split at h
    · exact ih h
    · split at h
      · cases h
      · split at h
        · cases h
        · exact ih h

/-- `xgb_relevancy_vectorize_sample_x` never changes the detector state. -/
theorem vectorize_sample_x_state {self self' : GBState} {X X' : Mat} {idata : Nat}
    {premise_shingles question_shingles : List String} {shingle2id : List (String × Nat)}
    {oov' : List String}
    (h : xgb_relevancy_vectorize_sample_x self X idata premise_shingles question_shingles
        shingle2id = .ok (self', X', oov')) :
    self' = self := by
  rw [xgb_relevancy_vectorize_sample_x] at h
  split at h
  · cases h
  · rename_i h1
    split at h
    · cases h
    · rename_i h2
      exact (vectorizeLoop_state h).trans
        ((vectorizeLoop_state h2).trans (vectorizeLoop_state h1))

/-- The batch-construction loop never changes the detector state. -/
theorem buildBatch_state {text_utils : TextUtils} {probe_phrase : String}
    {phrases : List Phrase} {i : Nat} {self self' : GBState} {X X' : Mat}
    (h : buildBatch text_utils probe_phrase phrases i self X = .ok (self', X')) :
    self' = self := by
  induction phrases generalizing i self X with
  | nil =>
    rw [buildBatch] at h
    cases h
    rfl
  | cons ph rest ih =>
    rw [buildBatch] at h
    split at h
    · cases h
    · rename_i hvec
      exact (ih h).trans (vectorize_sample_x_state hvec)

/-- Full characterization of one segment loop when all in-vocabulary columns
are in bounds: it succeeds, preserves state and shape, appends exactly the
out-of-vocabulary shingles to the hook-event list, and the resulting entries
are the old ones plus, in row `idata`, the columns `icol + offset` of the
in-vocabulary shingles of the segment. -/
theorem vectorizeLoop_spec (shingle2id : List (String × Nat)) (idata icol : Nat)
    (shingles : List String) (self : GBState) (X : Mat) (oov : List String)
    (hrow : idata < X.nrows)
    (hcol : ∀ sh ∈ shingles, ∀ off, dictLookup shingle2id sh = some off → icol + off < X.ncols) :
    ∃ X' : Mat,
      vectorizeLoop shingle2id idata icol shingles self X oov =
        .ok (self, X', oov ++ shingles.filter (fun sh => (dictLookup shingle2id sh).isNone)) ∧
      X'.nrows = X.nrows ∧ X'.ncols = X.ncols ∧
      ∀ r c, X'.entry r c = true ↔
        (X.entry r c = true ∨ (r = idata ∧ ∃ sh ∈ shingles, ∃ off,
          dictLookup shingle2id sh = some off ∧ c = icol + off)) := by
  induction shingles generalizing X oov with
  | nil =>
    refine ⟨X, ?_, rfl, rfl, by simp⟩
    simp [vectorizeLoop]
  | cons sh rest ih =>
    rcases hdl : dictLookup shingle2id sh with _ | off
    · have hpos : (dictLookup shingle2id sh).isNone = true := by rw [hdl]; rfl
      obtain ⟨X', heq, hr, hc, hent⟩ :=
        ih X (oov ++ [sh]) hrow (fun s hs => hcol s (List.mem_cons_of_mem _ hs))
      refine ⟨X', ?_, hr, hc, ?_⟩
      · rw [vectorizeLoop, if_pos hpos]
        rw [show unknown_shingle self sh = self from rfl, heq]
        simp [List.filter_cons, hpos]
      · intro r c
        rw [hent r c]
        constructor
        · rintro (h | ⟨rfl, s, hs, off, hoff, rfl⟩)
          · exact Or.inl h
          · exact Or.inr ⟨rfl, s, List.mem_cons_of_mem _ hs, off, hoff, rfl⟩
        · rintro (h | ⟨rfl, s, hs, off, hoff, rfl⟩)
          · exact Or.inl h
          · rcases List.mem_cons.mp hs with rfl | hs'
            · rw [hdl] at hoff
              cases hoff
            · exact Or.inr ⟨rfl, s, hs', off, hoff, rfl⟩
    · have hneg : ¬((dictLookup shingle2id sh).isNone = true) := by rw [hdl]; simp
      have hcb : icol + off < X.ncols := hcol sh (List.mem_cons_self _ _) off hdl
      have hset : X.setTrue idata (icol + off) =
          .ok ⟨X.nrows, X.ncols, fun r c => if r = idata ∧ c = icol + off then true else X.entry r c⟩ := by
        rw [Mat.setTrue, if_pos ⟨hrow, hcb⟩]
      obtain ⟨X', heq, hr, hc, hent⟩ :=
        ih ⟨X.nrows, X.ncols, fun r c => if r = idata ∧ c = icol + off then true else X.entry r c⟩
          oov hrow (fun s hs => hcol s (List.mem_cons_of_mem _ hs))
      refine ⟨X', ?_, hr, hc, ?_⟩
      · rw [vectorizeLoop, if_neg hneg]
        simp only [hdl, hset, heq]
        simp [List.filter_cons, hdl]
      · intro r c
        rw [hent r c]
        simp only
        constructor
        · rintro (h | ⟨rfl, s, hs, o, hoff, rfl⟩)
          · by_cases hif : r = idata ∧ c = icol + off
            · exact Or.inr ⟨hif.1, sh, List.mem_cons_self _ _, off, hdl, hif.2⟩
            · rw [if_neg hif] at h
              exact Or.inl h
          · exact Or.inr ⟨rfl, s, List.mem_cons_of_mem _ hs, o, hoff, rfl⟩
        · rintro (h | ⟨rfl, s, hs, o, hoff, rfl⟩)
          · left
            by_cases hif : r = idata ∧ c = icol + off
            · rw [if_pos hif]
            · rw [if_neg hif]
              exact h
          · rcases List.mem_cons.mp hs with rfl | hs'
            · rw [hdl] at hoff
              cases hoff
              left
              rw [if_pos ⟨rfl, rfl⟩]
            · exact Or.inr ⟨rfl, s, hs', o, hoff, rfl⟩

/-- The columns a segment with base `icol` can set: `icol + offset` for an
in-vocabulary shingle of the segment's shingle set. -/
def segCol (shingle2id : List (String × Nat)) (icol : Nat) (shingles : List String) (c : Nat) : Prop :=
  ∃ sh ∈ shingles, ∃ off, dictLookup shingle2id sh = some off ∧ c = icol + off

/-- Full characterization of `xgb_relevancy_vectorize_sample_x` when the row
index is in range, the column offsets are dense (`< nb_shingles`, the
Shingle-Index invariant) and the matrix has at least `3 * nb_shingles`
columns: the call succeeds, preserves state and shape, reports exactly the
out-of-vocabulary shingles of the three segment sets to the hook, and the
new entries are exactly the segment columns of row `idata`. -/
theorem vectorize_sample_x_spec (self : GBState) (X : Mat) (idata : Nat)
    (premise_shingles question_shingles : List String) (shingle2id : List (String × Nat))
    (hrow : idata < X.nrows)
    (hdense : ∀ kv ∈ shingle2id, kv.2 < shingle2id.length)
    (hcols : 3 * shingle2id.length ≤ X.ncols) :
    ∃ X' : Mat,
      xgb_relevancy_vectorize_sample_x self X idata premise_shingles question_shingles shingle2id =
        .ok (self, X',
          (pySetInter premise_shingles.dedup question_shingles.dedup).filter
              (fun sh => (dictLookup shingle2id sh).isNone) ++
            (pySetDiff premise_shingles.dedup question_shingles.dedup).filter
              (fun sh => (dictLookup shingle2id sh).isNone) ++
            (pySetDiff question_shingles.dedup premise_shingles.dedup).filter
              (fun sh => (dictLookup shingle2id sh).isNone)) ∧
      X'.nrows = X.nrows ∧ X'.ncols = X.ncols ∧
      ∀ r c, X'.entry r c = true ↔
        (X.entry r c = true ∨ (r = idata ∧
          (segCol shingle2id 0 (pySetInter premise_shingles.dedup question_shingles.dedup) c ∨
            segCol shingle2id shingle2id.length
              (pySetDiff premise_shingles.dedup question_shingles.dedup) c ∨
            segCol shingle2id (2 * shingle2id.length)
              (pySetDiff question_shingles.dedup premise_shingles.dedup) c))) := by
  have hoff_lt : ∀ sh off, dictLookup shingle2id sh = some off → off < shingle2id.length :=
    fun sh off h => hdense _ (dictLookup_mem h)
  obtain ⟨X1, h1, hr1, hc1, he1⟩ :=
    vectorizeLoop_spec shingle2id idata 0
      (pySetInter premise_shingles.dedup question_shingles.dedup) self X [] hrow
      (fun sh _ off hoff => by have := hoff_lt sh off hoff; omega)
  obtain ⟨X2, h2, hr2, hc2, he2⟩ :=
    vectorizeLoop_spec shingle2id idata shingle2id.length
      (pySetDiff premise_shingles.dedup question_shingles.dedup) self X1
      ([] ++ (pySetInter premise_shingles.dedup question_shingles.dedup).filter
        (fun sh => (dictLookup shingle2id sh).isNone))
      (by rw [hr1]; exact hrow)
      (fun sh _ off hoff => by have := hoff_lt sh off hoff; rw [hc1]; omega)
  obtain ⟨X3, h3, hr3, hc3, he3⟩ :=
    vectorizeLoop_spec shingle2id idata (2 * shingle2id.length)
      (pySetDiff question_shingles.dedup premise_shingles.dedup) self X2
      (([] ++ (pySetInter premise_shingles.dedup question_shingles.dedup).filter
          (fun sh => (dictLookup shingle2id sh).isNone)) ++
        (pySetDiff premise_shingles.dedup question_shingles.dedup).filter
          (fun sh => (dictLookup shingle2id sh).isNone))
      (by rw [hr2, hr1]; exact hrow)
      (fun sh _ off hoff => by have := hoff_lt sh off hoff; rw [hc2, hc1]; omega)
  refine ⟨X3, ?_, by rw [hr3, hr2, hr1], by rw [hc3, hc2, hc1], ?_⟩
  · simp only [xgb_relevancy_vectorize_sample_x, h1, h2, h3]
    simp [List.append_assoc]
  · intro r c
    rw [he3 r c, he2 r c, he1 r c]
    simp only [segCol]
    constructor
    · rintro (((h | h) | h) | h)
      · exact Or.inl h
      · exact Or.inr ⟨h.1, Or.inl h.2⟩
      · exact Or.inr ⟨h.1, Or.inr (Or.inl h.2)⟩
      · exact Or.inr ⟨h.1, Or.inr (Or.inr h.2)⟩
    · rintro (h | ⟨hq, (h | h | h)⟩)
      · exact Or.inl (Or.inl (Or.inl h))
      · exact Or.inl (Or.inl (Or.inr ⟨hq, h⟩))
      · exact Or.inl (Or.inr ⟨hq, h⟩)
      · exact Or.inr ⟨hq, h⟩

/-- Membership in the embedded Python set intersection. -/
theorem mem_pySetInter {a b : List String} {sh : String} :
    sh ∈ pySetInter a b ↔ sh ∈ a ∧ sh ∈ b := by
  simp [pySetInter]

/-- Membership in the embedded Python set difference. -/
theorem mem_pySetDiff {a b : List String} {sh : String} :
    sh ∈ pySetDiff a b ↔ sh ∈ a ∧ sh ∉ b := by
  simp [pySetDiff]

/-- Under dense offsets, a segment's columns lie in
`[icol, icol + nb_shingles)`. -/
theorem segCol_range {shingle2id : List (String × Nat)} {icol : Nat}
    {shingles : List String} {c : Nat}
    (hdense : ∀ kv ∈ shingle2id, kv.2 < shingle2id.length)
    (h : segCol shingle2id icol shingles c) :
    icol ≤ c ∧ c < icol + shingle2id.length := by
  obtain ⟨sh, _, off, hoff, rfl⟩ := h
  have := hdense _ (dictLookup_mem hoff)
  omega

/-- C2: vectorizing a row sets a new column only for a shingle present in
the Shingle Index, at `base + offset` with bases `0`, `nb_shingles` and
`2 * nb_shingles` for the common / premise-only / question-only segments;
the three segment sets are pairwise disjoint, and (offsets being dense, the
Shingle-Index invariant) no column can be set by two different segments. -/
theorem vectorize_segment_bases (self : GBState) (X : Mat) (idata : Nat)
    (premise_shingles question_shingles : List String) (shingle2id : List (String × Nat))
    (hrow : idata < X.nrows)
    (hdense : ∀ kv ∈ shingle2id, kv.2 < shingle2id.length)
    (hcols : 3 * shingle2id.length ≤ X.ncols) :
    ∃ self' X' oov,
      xgb_relevancy_vectorize_sample_x self X idata premise_shingles question_shingles
          shingle2id = .ok (self', X', oov) ∧
      (∀ sh, ¬(sh ∈ pySetInter premise_shingles.dedup question_shingles.dedup ∧
          sh ∈ pySetDiff premise_shingles.dedup question_shingles.dedup)) ∧
      (∀ sh, ¬(sh ∈ pySetInter premise_shingles.dedup question_shingles.dedup ∧
          sh ∈ pySetDiff question_shingles.dedup premise_shingles.dedup)) ∧
      (∀ sh, ¬(sh ∈ pySetDiff premise_shingles.dedup question_shingles.dedup ∧
          sh ∈ pySetDiff question_shingles.dedup premise_shingles.dedup)) ∧
      (∀ c, X'.entry idata c = true → X.entry idata c = true ∨
        segCol shingle2id 0 (pySetInter premise_shingles.dedup question_shingles.dedup) c ∨
        segCol shingle2id shingle2id.length
          (pySetDiff premise_shingles.dedup question_shingles.dedup) c ∨
        segCol shingle2id (2 * shingle2id.length)
          (pySetDiff question_shingles.dedup premise_shingles.dedup) c) ∧
      (∀ c, ¬(segCol shingle2id 0 (pySetInter premise_shingles.dedup question_shingles.dedup) c ∧
        segCol shingle2id shingle2id.length
          (pySetDiff premise_shingles.dedup question_shingles.dedup) c)) ∧
      (∀ c, ¬(segCol shingle2id 0 (pySetInter premise_shingles.dedup question_shingles.dedup) c ∧
        segCol shingle2id (2 * shingle2id.length)
          (pySetDiff question_shingles.dedup premise_shingles.dedup) c)) ∧
      (∀ c, ¬(segCol shingle2id shingle2id.length
          (pySetDiff premise_shingles.dedup question_shingles.dedup) c ∧
        segCol shingle2id (2 * shingle2id.length)
          (pySetDiff question_shingles.dedup premise_shingles.dedup) c)) := by
  obtain ⟨X', heq, _, _, hent⟩ :=
    vectorize_sample_x_spec self X idata premise_shingles question_shingles shingle2id
      hrow hdense hcols
  refine ⟨self, X', _, heq, ?_, ?_, ?_, ?_, ?_, ?_, ?_⟩
  · rintro sh ⟨h1, h2⟩
    exact (mem_pySetDiff.mp h2).2 (mem_pySetInter.mp h1).2
  · rintro sh ⟨h1, h2⟩
    exact (mem_pySetDiff.mp h2).2 (mem_pySetInter.mp h1).1
  · rintro sh ⟨h1, h2⟩
    exact (mem_pySetDiff.mp h1).2 (mem_pySetDiff.mp h2).1
  · intro c hc
    rcases (hent idata c).mp hc with h | ⟨-, h⟩
    · exact Or.inl h
    · exact Or.inr h
  · rintro c ⟨h1, h2⟩
    have r1 := segCol_range hdense h1
    have r2 := segCol_range hdense h2
    omega
  · rintro c ⟨h1, h2⟩
    have r1 := segCol_range hdense h1
    have r2 := segCol_range hdense h2
    omega
  · rintro c ⟨h1, h2⟩
    have r1 := segCol_range hdense h1
    have r2 := segCol_range hdense h2
    omega

/-- Witness for `vectorize_segment_bases` at a concrete call. -/
theorem vectorize_segment_bases_witness :
    (0 < (lil_matrix (2, 6)).nrows) ∧
      (∀ kv ∈ [("ab", 0), ("bc", 1)], kv.2 < [("ab", 0), ("bc", 1)].length) ∧
      (3 * [("ab", 0), ("bc", 1)].length ≤ (lil_matrix (2, 6)).ncols) ∧
      (∃ self' X' oov,
        xgb_relevancy_vectorize_sample_x ⟨[("ab", 0), ("bc", 1)], 2, 6, false, "bool"⟩
            (lil_matrix (2, 6)) 0 ["ab", "bc", "zz"] ["bc"] [("ab", 0), ("bc", 1)] =
          .ok (self', X', oov)) := by
  refine ⟨by decide, by decide, by decide, ?_⟩
  obtain ⟨self', X', oov, h1, -⟩ :=
    vectorize_segment_bases ⟨[("ab", 0), ("bc", 1)], 2, 6, false, "bool"⟩
      (lil_matrix (2, 6)) 0 ["ab", "bc", "zz"] ["bc"] [("ab", 0), ("bc", 1)]
      (by decide) (by decide) (by decide)
  exact ⟨self', X', oov, h1⟩

/-- C6: vectorizing a row whose shingle sets contain out-of-vocabulary
shingles never raises and never aborts the row: the call succeeds, the state
comes back unchanged (the hook's body is a no-op), the hook receives exactly
the out-of-vocabulary shingles of the three segment sets, every
in-vocabulary shingle of the pair still has its segment column set, and
every newly set column is accounted for by an in-vocabulary shingle (an
out-of-vocabulary shingle sets no column). -/
theorem vectorize_oov_tolerant (self : GBState) (X : Mat) (idata : Nat)
    (premise_shingles question_shingles : List String) (shingle2id : List (String × Nat))
    (hrow : idata < X.nrows)
    (hdense : ∀ kv ∈ shingle2id, kv.2 < shingle2id.length)
    (hcols : 3 * shingle2id.length ≤ X.ncols) :
    ∃ X' : Mat,
      xgb_relevancy_vectorize_sample_x self X idata premise_shingles question_shingles
          shingle2id =
        .ok (self, X',
          (pySetInter premise_shingles.dedup question_shingles.dedup).filter
              (fun sh => (dictLookup shingle2id sh).isNone) ++
            (pySetDiff premise_shingles.dedup question_shingles.dedup).filter
              (fun sh => (dictLookup shingle2id sh).isNone) ++
            (pySetDiff question_shingles.dedup premise_shingles.dedup).filter
              (fun sh => (dictLookup shingle2id sh).isNone)) ∧
      (∀ sh off, dictLookup shingle2id sh = some off →
        (sh ∈ pySetInter premise_shingles.dedup question_shingles.dedup →
          X'.entry idata (0 + off) = true) ∧
        (sh ∈ pySetDiff premise_shingles.dedup question_shingles.dedup →
          X'.entry idata (shingle2id.length + off) = true) ∧
        (sh ∈ pySetDiff question_shingles.dedup premise_shingles.dedup →
          X'.entry idata (2 * shingle2id.length + off) = true)) ∧
      (∀ c, X'.entry idata c = true → X.entry idata c = true ∨
        ∃ sh off, dictLookup shingle2id sh = some off ∧
          ((sh ∈ pySetInter premise_shingles.dedup question_shingles.dedup ∧ c = 0 + off) ∨
            (sh ∈ pySetDiff premise_shingles.dedup question_shingles.dedup ∧
              c = shingle2id.length + off) ∨
            (sh ∈ pySetDiff question_shingles.dedup premise_shingles.dedup ∧
              c = 2 * shingle2id.length + off))) := by
  obtain ⟨X', heq, _, _, hent⟩ :=
    vectorize_sample_x_spec self X idata premise_shingles question_shingles shingle2id
      hrow hdense hcols
  refine ⟨X', heq, ?_, ?_⟩
  · intro sh off hoff
    refine ⟨fun hm => ?_, fun hm => ?_, fun hm => ?_⟩
    · exact (hent idata (0 + off)).mpr (Or.inr ⟨rfl, Or.inl ⟨sh, hm, off, hoff, rfl⟩⟩)
    · exact (hent idata (shingle2id.length + off)).mpr
        (Or.inr ⟨rfl, Or.inr (Or.inl ⟨sh, hm, off, hoff, rfl⟩)⟩)
    · exact (hent idata (2 * shingle2id.length + off)).mpr
        (Or.inr ⟨rfl, Or.inr (Or.inr ⟨sh, hm, off, hoff, rfl⟩)⟩)
  · intro c hc
    rcases (hent idata c).mp hc with h | ⟨-, h | h | h⟩
    · exact Or.inl h
    · obtain ⟨sh, hm, off, hoff, rfl⟩ := h
      exact Or.inr ⟨sh, off, hoff, Or.inl ⟨hm, rfl⟩⟩
    · obtain ⟨sh, hm, off, hoff, rfl⟩ := h
      exact Or.inr ⟨sh, off, hoff, Or.inr (Or.inl ⟨hm, rfl⟩)⟩
    · obtain ⟨sh, hm, off, hoff, rfl⟩ := h
      exact Or.inr ⟨sh, off, hoff, Or.inr (Or.inr ⟨hm, rfl⟩)⟩

/-- Witness for `vectorize_oov_tolerant`: a concrete call with an
out-of-vocabulary shingle (`"zz"`) still succeeds, and the hook receives
exactly that shingle. -/
theorem vectorize_oov_tolerant_witness :
    (0 < (lil_matrix (1, 6)).nrows) ∧
      (∀ kv ∈ [("ab", 0), ("bc", 1)], kv.2 < [("ab", 0), ("bc", 1)].length) ∧
      (3 * [("ab", 0), ("bc", 1)].length ≤ (lil_matrix (1, 6)).ncols) ∧
      (∃ X' : Mat,
        xgb_relevancy_vectorize_sample_x ⟨[("ab", 0), ("bc", 1)], 2, 6, false, "bool"⟩
            (lil_matrix (1, 6)) 0 ["ab", "zz"] ["ab", "bc"] [("ab", 0), ("bc", 1)] =
          .ok (⟨[("ab", 0), ("bc", 1)], 2, 6, false, "bool"⟩, X', ["zz"])) := by
  refine ⟨by decide, by decide, by decide, ?_⟩
  obtain ⟨X', heq, -, -⟩ :=
    vectorize_oov_tolerant ⟨[("ab", 0), ("bc", 1)], 2, 6, false, "bool"⟩
      (lil_matrix (1, 6)) 0 ["ab", "zz"] ["ab", "bc"] [("ab", 0), ("bc", 1)]
      (by decide) (by decide) (by decide)
    
  refine ⟨X', ?_⟩
  rw [heq]
  rfl

/-- C10: vectorizing one sample into the batch at row `idata` modifies only
row `idata` (every entry of every other row and the shape are unchanged),
and within row `idata` entries are only ever set to true, never cleared. -/
theorem vectorize_row_frame (self : GBState) (X : Mat) (idata : Nat)
    (premise_shingles question_shingles : List String) (shingle2id : List (String × Nat))
    (hrow : idata < X.nrows)
    (hdense : ∀ kv ∈ shingle2id, kv.2 < shingle2id.length)
    (hcols : 3 * shingle2id.length ≤ X.ncols) :
    ∃ self' X' oov,
      xgb_relevancy_vectorize_sample_x self X idata premise_shingles question_shingles
          shingle2id = .ok (self', X', oov) ∧
      X'.nrows = X.nrows ∧ X'.ncols = X.ncols ∧
      (∀ j c, j ≠ idata → X'.entry j c = X.entry j c) ∧
      (∀ c, X.entry idata c = true → X'.entry idata c = true) := by
  obtain ⟨X', heq, hr, hc, hent⟩ :=
    vectorize_sample_x_spec self X idata premise_shingles question_shingles shingle2id
      hrow hdense hcols
  refine ⟨self, X', _, heq, hr, hc, ?_, ?_⟩
  · intro j c hj
    have hiff := hent j c
    cases hXv : X.entry j c with
    | true => exact (hent j c).mpr (Or.inl hXv)
    | false =>
      cases hX'v : X'.entry j c with
      | false => rfl
      | true =>
        rcases (hent j c).mp hX'v with h | ⟨hji, -⟩
        · rw [h] at hXv
          cases hXv
        · exact absurd hji hj
  · intro c hc
    exact (hent idata c).mpr (Or.inl hc)

/-- Witness for `vectorize_row_frame` at a concrete call. -/
theorem vectorize_row_frame_witness :
    (0 < (lil_matrix (3, 6)).nrows) ∧
      (∀ kv ∈ [("ab", 0), ("bc", 1)], kv.2 < [("ab", 0), ("bc", 1)].length) ∧
      (3 * [("ab", 0), ("bc", 1)].length ≤ (lil_matrix (3, 6)).ncols) ∧
      (∃ self' X' oov,
        xgb_relevancy_vectorize_sample_x ⟨[("ab", 0), ("bc", 1)], 2, 6, false, "bool"⟩
            (lil_matrix (3, 6)) 0 ["ab"] ["bc"] [("ab", 0), ("bc", 1)] =
          .ok (self', X', oov) ∧ X'.entry 1 0 = (lil_matrix (3, 6)).entry 1 0 ∧
          X'.entry 2 3 = (lil_matrix (3, 6)).entry 2 3) := by
  refine ⟨by decide, by decide, by decide, ?_⟩
  obtain ⟨self', X', oov, heq, -, -, hframe, -⟩ :=
    vectorize_row_frame ⟨[("ab", 0), ("bc", 1)], 2, 6, false, "bool"⟩
      (lil_matrix (3, 6)) 0 ["ab"] ["bc"] [("ab", 0), ("bc", 1)]
      (by decide) (by decide) (by decide)
  exact ⟨self', X', oov, heq, hframe 1 0 (by decide), hframe 2 3 (by decide)⟩

/-! ## Lemmas about the ranking sort -/

/-- Inserting an element permutes it to the front. -/
theorem sortedInsertNegKey_perm (z : String × Rat) (l : List (String × Rat)) :
    List.Perm (sortedInsertNegKey z l) (z :: l) := by
  induction l with
  | nil => exact List.Perm.refl _
  | cons w ws ih =>
    rw [sortedInsertNegKey]
    split
    · exact List.Perm.refl _
    · exact (ih.cons w).trans (List.Perm.swap z w ws)

/-- The embedded `sorted(…, key=lambda z: -z[1])` permutes its input. -/
theorem pySortedNegKey_perm (l : List (String × Rat)) :
    List.Perm (pySortedNegKey l) l := by
  induction l with
  | nil => exact List.Perm.refl _
  | cons z zs ih => exact (sortedInsertNegKey_perm z (pySortedNegKey zs)).trans (ih.cons z)

/-- Insertion preserves the descending-by-relevance ordering. -/
theorem sortedInsertNegKey_sorted {z : String × Rat} {l : List (String × Rat)}
    (hl : List.Pairwise (fun a b : String × Rat => b.2 ≤ a.2) l) :
    List.Pairwise (fun a b : String × Rat => b.2 ≤ a.2) (sortedInsertNegKey z l) := by
  induction l with
  | nil => simp [sortedInsertNegKey]
  | cons w ws ih =>
    rcases List.pairwise_cons.mp hl with ⟨hw, hws⟩
    rw [sortedInsertNegKey]
    split
    · rename_i hle
      refine List.pairwise_cons.mpr ⟨?_, hl⟩
      intro b hb
      rcases List.mem_cons.mp hb with rfl | hbws
      · exact neg_le_neg_iff.mp hle
      · exact le_trans (hw b hbws) (neg_le_neg_iff.mp hle)
    · rename_i hgt
      have hzw : z.2 < w.2 := neg_lt_neg_iff.mp (not_le.mp hgt)
      refine List.pairwise_cons.mpr ⟨?_, ih hws⟩
      intro b hb
      rcases List.mem_cons.mp ((sortedInsertNegKey_perm z ws).mem_iff.mp hb) with rfl | hbws
      · exact le_of_lt hzw
      · exact hw b hbws

/-- The embedded sort is sorted by descending relevance. -/
theorem pySortedNegKey_sorted (l : List (String × Rat)) :
    List.Pairwise (fun a b : String × Rat => b.2 ≤ a.2) (pySortedNegKey l) := by
  induction l with
  | nil => simp [pySortedNegKey]
  | cons z zs ih => exact sortedInsertNegKey_sorted ih

/-- Elements inserted pass only over strictly larger relevances, so the
equal-relevance fibre gains the new element at its front. -/
theorem sortedInsertNegKey_filter (z : String × Rat) (l : List (String × Rat)) (v : Rat) :
    (sortedInsertNegKey z l).filter (fun w => decide (w.2 = v)) =
      if z.2 = v then z :: l.filter (fun w => decide (w.2 = v))
      else l.filter (fun w => decide (w.2 = v)) := by
  induction l with
  | nil =>
    by_cases hz : z.2 = v <;> simp [sortedInsertNegKey, List.filter_cons, hz]
  | cons w ws ih =>
    rw [sortedInsertNegKey]
    split
    · rename_i hle
      by_cases hz : z.2 = v <;> simp [List.filter_cons, hz]
    · rename_i hgt
      have hzw : z.2 < w.2 := neg_lt_neg_iff.mp (not_le.mp hgt)
      by_cases hz : z.2 = v
      · have hwv : ¬(w.2 = v) := by
          intro hwv
          rw [hz] at hzw
          rw [hwv] at hzw
          exact lt_irrefl v hzw
        simp [List.filter_cons, hz, hwv, ih]
      · simp [List.filter_cons, hz, ih]

/-- C4: the sort performed by `get_most_relevant`
(`sorted(reslist, key=lambda z: -z[1])`) is a stable descending sort: it
permutes the candidate/score pairs into descending-score order, and for
every score value the subsequence of pairs carrying exactly that score is
unchanged — so any two candidates with equal scores appear in the result in
their original relative input order. -/
theorem pySorted_stable_descending (l : List (String × Rat)) (v : Rat) :
    List.Perm (pySortedNegKey l) l ∧
      List.Pairwise (fun a b : String × Rat => b.2 ≤ a.2) (pySortedNegKey l) ∧
      (pySortedNegKey l).filter (fun w => decide (w.2 = v)) =
        l.filter (fun w => decide (w.2 = v)) := by
  refine ⟨pySortedNegKey_perm l, pySortedNegKey_sorted l, ?_⟩
  induction l with
  | nil => rfl
  | cons z zs ih =>
    rw [pySortedNegKey, sortedInsertNegKey_filter, List.filter_cons]
    by_cases hz : z.2 = v <;> simp [hz, ih]

/-! ## Lemmas about batch construction and result pairing -/

/-- When the scorer returned enough scores, the pairing loop succeeds and
produces the premise texts zipped with the scores from index `i` on. -/
theorem mkReslistAux_eq_zip (y : List Rat) (phrases : List Phrase) (i : Nat)
    (h : i + phrases.length ≤ y.length) :
    mkReslistAux y phrases i = .ok ((phrases.map Phrase.premise).zip (y.drop i)) := by
  induction phrases generalizing i with
  | nil => rfl
  | cons ph rest ih =>
    have hi : i < y.length := by
      simp only [List.length_cons] at h
      omega
    have hget : pyGet y i = .ok y[i] := by
      rw [pyGet, List.get?_eq_getElem?, List.getElem?_eq_getElem hi]
    have htail := ih (i + 1) (by simp only [List.length_cons] at h; omega)
    simp only [mkReslistAux, hget, htail]
    rw [List.drop_eq_getElem_cons hi]
    rfl

/-- `[l[i] for i in range(n)]` succeeds and equals `take n` when `n` is at
most the length. -/
theorem pyIndexMap_eq_take {α : Type} {l : List α} {n : Nat} (h : n ≤ l.length) :
    pyIndexMap l n = .ok (l.take n) := by
  induction n with
  | zero => rfl
  | succ m ih =>
    have hm : m < l.length := by omega
    have hget : pyGet l m = .ok l[m] := by
      rw [pyGet, List.get?_eq_getElem?, List.getElem?_eq_getElem hm]
    simp only [pyIndexMap, ih (by omega), hget]
    rw [List.take_succ, List.getElem?_eq_getElem hm]
    rfl

/-- Under the Shingle-Index invariants, the batch-construction loop succeeds
(with the state unchanged) and preserves the matrix shape. -/
theorem buildBatch_spec (text_utils : TextUtils) (probe_phrase : String)
    (phrases : List Phrase) (i : Nat) (self : GBState) (X : Mat)
    (hlen : i + phrases.length ≤ X.nrows)
    (hdense : ∀ kv ∈ self.xgb_relevancy_shingle2id, kv.2 < self.xgb_relevancy_shingle2id.length)
    (hcols : 3 * self.xgb_relevancy_shingle2id.length ≤ X.ncols) :
    ∃ X', buildBatch text_utils probe_phrase phrases i self X = .ok (self, X') ∧
      X'.nrows = X.nrows ∧ X'.ncols = X.ncols := by
  induction phrases generalizing i X with
  | nil => exact ⟨X, rfl, rfl, rfl⟩
  | cons ph rest ih =>
    obtain ⟨X1, hvec, hr1, hc1, -⟩ :=
      vectorize_sample_x_spec self X i
        ((text_utils.ngrams
          (text_utils.words2str
            (if self.xgb_relevancy_lemmatize then text_utils.tokenize ph.premise
              else text_utils.lemmatize ph.premise))
          self.xgb_relevancy_shingle_len).dedup)
        ((text_utils.ngrams
          (text_utils.words2str
            (if self.xgb_relevancy_lemmatize then text_utils.tokenize probe_phrase
              else text_utils.lemmatize probe_phrase))
          self.xgb_relevancy_shingle_len).dedup)
        self.xgb_relevancy_shingle2id
        (by simp only [List.length_cons] at hlen; omega) hdense hcols
    obtain ⟨X', heq, hr, hc⟩ :=
      ih (i + 1) X1 (by simp only [List.length_cons] at hlen; omega)
        (by rw [hc1]; exact hcols)
    refine ⟨X', ?_, hr.trans hr1, hc.trans hc1⟩
    simp only [buildBatch, hvec, heq]

/-- Under the Shingle-Index invariants, `get_most_relevant` builds its batch
without error, keeps its state, performs exactly one scoring call — on the
full batch of `len(phrases)` rows — and hands the scores to the
selection phase. -/
theorem get_most_relevant_ok (self : GBState) (probe_phrase : String)
    (phrases : List Phrase) (text_utils : TextUtils) (scorer : Mat → List Rat)
    (nb_results : Nat)
    (hdense : ∀ kv ∈ self.xgb_relevancy_shingle2id, kv.2 < self.xgb_relevancy_shingle2id.length)
    (hfeat : 3 * self.xgb_relevancy_shingle2id.length ≤ self.xgb_relevancy_nb_features) :
    ∃ X : Mat,
      buildBatch text_utils probe_phrase phrases 0 self
          (lil_matrix (phrases.length, self.xgb_relevancy_nb_features)) = .ok (self, X) ∧
      X.nrows = phrases.length ∧ X.ncols = self.xgb_relevancy_nb_features ∧
      get_most_relevant self probe_phrase phrases text_utils scorer nb_results =
        .ok ⟨[phrases.length], self, afterScore phrases (scorer X) nb_results⟩ := by
  obtain ⟨X, heq, hr, hc⟩ :=
    buildBatch_spec text_utils probe_phrase phrases 0 self
      (lil_matrix (phrases.length, self.xgb_relevancy_nb_features))
      (by simp [lil_matrix]) hdense (by simp [lil_matrix]; exact hfeat)
  have hr' : X.nrows = phrases.length := by rw [hr]; rfl
  have hc' : X.ncols = self.xgb_relevancy_nb_features := by rw [hc]; rfl
  refine ⟨X, heq, hr', hc', ?_⟩
  simp only [get_most_relevant, heq, hr']

/-- C1: for a non-empty candidate list and `nb_results ≥ 1`, with a scorer
obeying the one-score-per-row contract and the Shingle-Index invariants,
`get_most_relevant` never raises: with `nb_results = 1` it returns the single
(premise text, score) pair whose score is maximal among all candidates;
otherwise it returns the first `min(nb_results, len(phrases))` premise texts
and their scores as two parallel sequences ordered by descending score — in
particular an `nb_results` larger than the candidate count yields exactly
`len(phrases)` results. -/
theorem get_most_relevant_top_n (self : GBState) (probe_phrase : String)
    (phrases : List Phrase) (text_utils : TextUtils) (scorer : Mat → List Rat)
    (nb_results : Nat)
    (hne : phrases ≠ []) (hnb : 1 ≤ nb_results)
    (hscorer : ∀ X, (scorer X).length = X.nrows)
    (hdense : ∀ kv ∈ self.xgb_relevancy_shingle2id, kv.2 < self.xgb_relevancy_shingle2id.length)
    (hfeat : 3 * self.xgb_relevancy_shingle2id.length ≤ self.xgb_relevancy_nb_features) :
    ∃ X : Mat,
      buildBatch text_utils probe_phrase phrases 0 self
          (lil_matrix (phrases.length, self.xgb_relevancy_nb_features)) = .ok (self, X) ∧
      (nb_results = 1 →
        ∃ t s', get_most_relevant self probe_phrase phrases text_utils scorer nb_results =
            .ok ⟨[phrases.length], self, .ok (.single t s')⟩ ∧
          (t, s') ∈ (phrases.map Phrase.premise).zip (scorer X) ∧
          ∀ p ∈ (phrases.map Phrase.premise).zip (scorer X), p.2 ≤ s') ∧
      (nb_results ≠ 1 →
        ∃ ts ss ranking,
          get_most_relevant self probe_phrase phrases text_utils scorer nb_results =
            .ok ⟨[phrases.length], self, .ok (.multi ts ss)⟩ ∧
          ts.length = min nb_results phrases.length ∧
          ss.length = min nb_results phrases.length ∧
          List.Perm ((phrases.map Phrase.premise).zip (scorer X)) ranking ∧
          List.Pairwise (fun a b : String × Rat => b.2 ≤ a.2) ranking ∧
          ts = (ranking.take (min nb_results phrases.length)).map Prod.fst ∧
          ss = (ranking.take (min nb_results phrases.length)).map Prod.snd) := by
  obtain ⟨X, hbb, hXr, hXc, hgmr⟩ :=
    get_most_relevant_ok self probe_phrase phrases text_utils scorer nb_results hdense hfeat
  have hylen : (scorer X).length = phrases.length := by rw [hscorer X, hXr]
  set cand := (phrases.map Phrase.premise).zip (scorer X) with hcanddef
  have hres : mkReslist phrases (scorer X) = .ok cand := by
    have hz := mkReslistAux_eq_zip (scorer X) phrases 0 (by omega)
    rw [mkReslist, hz, List.drop_zero]
  have hcandlen : cand.length = phrases.length := by
    rw [hcanddef, List.length_zip, List.length_map, hylen, Nat.min_self]
  have hsrtlen : (pySortedNegKey cand).length = phrases.length := by
    rw [(pySortedNegKey_perm _).length_eq, hcandlen]
  refine ⟨X, hbb, ?_, ?_⟩
  · rintro rfl
    have hne' : pySortedNegKey cand ≠ [] := by
      intro h0
      rw [h0] at hsrtlen
      exact hne (List.length_eq_zero.mp hsrtlen.symm)
    obtain ⟨z, zs, hzs⟩ := List.exists_cons_of_ne_nil hne'
    refine ⟨z.1, z.2, ?_, ?_, ?_⟩
    · rw [hgmr]
      have hafter : afterScore phrases (scorer X) 1 = .ok (.single z.1 z.2) := by
        simp only [afterScore, hres, if_pos rfl, hzs]
        rfl
      rw [hafter]
    · have hzmem : z ∈ pySortedNegKey cand := by
        rw [hzs]
        exact List.mem_cons_self _ _
      have hz := (pySortedNegKey_perm _).mem_iff.mp hzmem
      simpa using hz
    · intro p hp
      have hpsrt : p ∈ pySortedNegKey cand := (pySortedNegKey_perm _).mem_iff.mpr hp
      rw [hzs] at hpsrt
      rcases List.mem_cons.mp hpsrt with rfl | hpzs
      · exact le_refl _
      · have hsorted := pySortedNegKey_sorted cand
        rw [hzs] at hsorted
        exact (List.pairwise_cons.mp hsorted).1 p hpzs
  · intro h1
    have hn : min nb_results phrases.length ≤ (pySortedNegKey cand).length := by
      rw [hsrtlen]
      omega
    have hidx := pyIndexMap_eq_take hn
    refine ⟨_, _, pySortedNegKey cand, ?_, ?_, ?_,
      (pySortedNegKey_perm cand).symm, pySortedNegKey_sorted cand, rfl, rfl⟩
    · rw [hgmr]
      have hafter : afterScore phrases (scorer X) nb_results =
          .ok (.multi
            (((pySortedNegKey cand).take (min nb_results phrases.length)).map Prod.fst)
            (((pySortedNegKey cand).take (min nb_results phrases.length)).map Prod.snd)) := by
        simp only [afterScore, hres, if_neg h1, hidx]
      rw [hafter]
    · rw [List.length_map, List.length_take, hsrtlen]
      omega
    · rw [List.length_map, List.length_take, hsrtlen]
      omega

/-! ## Concrete fixtures for witnesses and counterexamples -/

/-- A concrete detector state: two shingles, `nb_features = 3 * 2`. -/
def demoSelf : GBState := ⟨[("ab", 0), ("bc", 1)], 2, 6, false, "bool"⟩

/-- A concrete text-utilities collaborator. -/
def demoTextUtils : TextUtils :=
  ⟨fun s => [s], fun s => [s], String.join, fun s _ => [s]⟩

/-- A concrete scorer obeying the one-score-per-row contract. -/
def demoScorer : Mat → List Rat := fun X => List.replicate X.nrows 0

/-- Two concrete candidate records. -/
def demoPhrases : List Phrase := [⟨"p1", "", ""⟩, ⟨"p2", "", ""⟩]

/-- Witness for `get_most_relevant_top_n`: with 2 candidates and
`nb_results = 1000` the call returns exactly 2 results and does not raise. -/
theorem get_most_relevant_top_n_witness :
    ∃ ts ss, get_most_relevant demoSelf "probe" demoPhrases demoTextUtils demoScorer 1000 =
        .ok ⟨[2], demoSelf, .ok (.multi ts ss)⟩ ∧ ts.length = 2 ∧ ss.length = 2 := by
  obtain ⟨X, -, -, hmulti⟩ :=
    get_most_relevant_top_n demoSelf "probe" demoPhrases demoTextUtils demoScorer 1000
      (by decide) (by decide) (fun X => by simp [demoScorer]) (by decide) (by decide)
  obtain ⟨ts, ss, ranking, heq, hts, hss, -⟩ := hmulti (by decide)
  exact ⟨ts, ss, heq, hts, hss⟩

/-- C3 (amended): a call of `get_most_relevant` on an empty candidate list is
not rejected before scoring — the scorer is invoked once, on a zero-row
batch (the recorded call-row-count list is `[0]`); only afterwards does the
call fail, with an `IndexError` on `reslist[0]` when `nb_results = 1`, and
with `nb_results ≠ 1` it returns two empty sequences instead. -/
theorem get_most_relevant_empty_candidates (self : GBState) (probe_phrase : String)
    (text_utils : TextUtils) (scorer : Mat → List Rat) (nb_results : Nat) :
    get_most_relevant self probe_phrase [] text_utils scorer nb_results =
      .ok ⟨[0], self,
        if nb_results = 1 then .error ("IndexError") else .ok (.multi [] [])⟩ := by
  by_cases h1 : nb_results = 1
  · subst h1
    simp [get_most_relevant, buildBatch, afterScore, mkReslist, mkReslistAux,
      pySortedNegKey, pyGet, lil_matrix]
  · simp [get_most_relevant, buildBatch, afterScore, mkReslist, mkReslistAux,
      pySortedNegKey, pyGet, pyIndexMap, lil_matrix, h1, Nat.min_zero]

/-- Counterexample to C3 as stated: at the concrete call
`get_most_relevant` with an empty candidate list, the recorded scoring-call
list is `[0]` — the scorer IS invoked, once, on a batch with zero rows, so
the call is not rejected before the scoring call; the `IndexError` arises
only afterwards, at `reslist[0]`. -/
theorem get_most_relevant_empty_scored_counterexample :
    get_most_relevant demoSelf "" [] demoTextUtils demoScorer 1 =
      .ok ⟨[0], demoSelf, .error ("IndexError")⟩ := rfl

/-- C7: the base-class `predict_by_model` (body `raise NotImplemented()`)
fails on every input, but with a `TypeError` — calling the non-callable
`NotImplemented` sentinel — rather than with a `NotImplementedError`
("not implemented") signal. -/
theorem predict_by_model_base_raises :
    predict_by_model (lil_matrix (1, 1)) =
        .error (.typeError ("NotImplementedType object is not callable")) ∧
      ∀ msg, predict_by_model (lil_matrix (1, 1)) ≠ .error (.notImplementedError msg) :=
  ⟨rfl, fun _ h => PyExc.noConfusion (Except.error.inj h)⟩

/-- C9: a successful call of `get_most_relevant` leaves every model
parameter exactly as `init_model_params` loaded it — the Shingle Index,
shingle length, feature count, lemmatize flag, and the matrix element type
(the latter as set at construction) are unchanged. -/
theorem get_most_relevant_preserves_params (self0 : GBState) (model_config : ModelConfig)
    (probe_phrase : String) (phrases : List Phrase) (text_utils : TextUtils)
    (scorer : Mat → List Rat) (nb_results : Nat) (out : RankOutcome)
    (h : get_most_relevant (init_model_params self0 model_config) probe_phrase phrases
        text_utils scorer nb_results = .ok out) :
    out.state_after = init_model_params self0 model_config ∧
      out.state_after.xgb_relevancy_shingle2id = model_config.shingle2id ∧
      out.state_after.xgb_relevancy_shingle_len = model_config.shingle_len ∧
      out.state_after.xgb_relevancy_nb_features = model_config.nb_features ∧
      out.state_after.xgb_relevancy_lemmatize = model_config.lemmatize ∧
      out.state_after.x_matrix_type = self0.x_matrix_type := by
  have hstate : out.state_after = init_model_params self0 model_config := by
    simp only [get_most_relevant] at h
    split at h
    · cases h
    · rename_i self1 X1 hbb
      cases h
      exact buildBatch_state hbb
  refine ⟨hstate, ?_, ?_, ?_, ?_, ?_⟩ <;> rw [hstate] <;> rfl

/-- A state loaded by `init_model_params` over a fresh detector. -/
def demoInitState : GBState :=
  init_model_params ⟨[], 0, 0, false, "float32"⟩ ⟨[("ab", 0)], 2, 3, true⟩

/-- The outcome of the concrete ranking call used by the frame witness. -/
def demoOut : RankOutcome := ⟨[1], demoInitState, .ok (.single "p" 0)⟩

/-- Witness for `get_most_relevant_preserves_params`: a concrete successful
call whose resulting state still holds exactly the loaded parameters. -/
theorem get_most_relevant_preserves_params_witness :
    (get_most_relevant demoInitState "" [⟨"p", "q", "r"⟩] demoTextUtils demoScorer 1 =
        .ok demoOut) ∧
      demoOut.state_after = demoInitState ∧
      demoOut.state_after.xgb_relevancy_shingle2id = [("ab", 0)] ∧
      demoOut.state_after.x_matrix_type = "float32" := by
  have h : get_most_relevant demoInitState "" [⟨"p", "q", "r"⟩] demoTextUtils demoScorer 1 =
      .ok demoOut := rfl
  refine ⟨h, ?_, ?_, ?_⟩
  · exact (get_most_relevant_preserves_params _ _ _ _ _ _ _ _ h).1
  · exact (get_most_relevant_preserves_params _ _ _ _ _ _ _ _ h).2.1
  · exact (get_most_relevant_preserves_params _ _ _ _ _ _ _ _ h).2.2.2.2.2
